import Mathlib

set_option linter.unusedVariables false

/-!
Shallow embedding of the funding-arbitrage bot's opportunity engine
(`auto-trade.scheduler.ts`, `profit-calculator.ts`, `opportunity-filter.ts`,
`risk-manager.service.ts`, `funding-rate.service.ts`) together with proofs
about the spec's testable properties.  Exchange-reported numbers are embedded
as exact rationals; timestamps as integers (milliseconds); JS `Map`s as
insertion-ordered association lists.
-/

namespace FundingArb

/-- A funding-rate observation as produced by an exchange connector
(`FundingRate` in `exchange.interface.ts`); only the fields the scheduler
logic reads are carried. -/
structure FundingRate where
  symbol : String
  fundingRate : ℚ
  nextFundingTime : ℤ
deriving DecidableEq

/-- One scenario rule of `AutoTradeConfig.scenarios` in
`auto-trade.scheduler.ts`.  The presentation-only string fields
(description, condition, strategy, timing) are never read by the embedded
logic and are omitted. -/
structure Scenario where
  id : ℕ
  name : String
  minProfitThreshold : ℚ
  riskLevel : String
deriving DecidableEq

/-- `isOppositeSign` as defined identically in `AutoTradeScheduler` and
`ProfitCalculator`. -/
def isOppositeSign (rate1 rate2 : ℚ) : Bool :=
  (decide (0 < rate1) && decide (rate2 < 0)) || (decide (rate1 < 0) && decide (0 < rate2))

/-- `isSameSign` from `auto-trade.scheduler.ts`. -/
def isSameSign (rate1 rate2 : ℚ) : Bool :=
  (decide (0 < rate1) && decide (0 < rate2)) || (decide (rate1 < 0) && decide (rate2 < 0))

/-- `ProfitCalculator.calculateExpectedProfit` from `profit-calculator.ts`.
The two optional price arguments model the TS optional parameters; the JS
guard `if (exchange1Price && exchange2Price)` treats both `undefined` and
`0` as falsy, hence the explicit nonzero test in case 3. -/
def calculateExpectedProfit (scenarioId : ℕ) (rate1 rate2 : ℚ)
    (exchange1Price exchange2Price : Option ℚ) : ℚ :=
  match scenarioId with
  | 1 => |rate1| + |rate2|
  | 2 => |rate1 - rate2|
  | 3 =>
    match exchange1Price, exchange2Price with
    | some p1, some p2 =>
      if p1 ≠ 0 ∧ p2 ≠ 0 then
        |p1 - p2| / min p1 p2 - |rate1 + rate2| / 2
      else |rate1 - rate2|
    | _, _ => |rate1 - rate2|
  | 4 =>
    if isOppositeSign rate1 rate2 then |rate1| + |rate2|
    else |rate1 - rate2| * (1 / 2)
  | 5 => |rate1 - rate2|
  | _ => |rate1 - rate2|

/-- `shouldEmergencyStop` from `auto-trade.scheduler.ts` (lines 597-602),
parameterised by the two values it reads: `this.dailyPnL` and
`this.config.emergencyStop.maxDailyLoss`. -/
def shouldEmergencyStop (dailyPnL maxDailyLoss : ℚ) : Bool :=
  decide (maxDailyLoss < |dailyPnL|) || decide (dailyPnL < -maxDailyLoss)

/-- Modelled from the spec: `shouldEmergencyStop() = dailyPnL < −maxDailyLoss`
(spec section 4.6), the behaviour the repository's CODE_REVIEW.md also records
as the intended fix.  Kept for comparison with the source definition above. -/
def shouldEmergencyStopSpec (dailyPnL maxDailyLoss : ℚ) : Bool :=
  decide (dailyPnL < -maxDailyLoss)

/-! ## Risk manager (`risk-manager.service.ts`) -/

/-- `RiskParameters` from `risk.interface.ts`, as read by
`RiskManager.evaluateNewPosition`. -/
structure RiskParameters where
  maxLeverage : ℚ
  maxPositionSize : ℚ
  maxPortfolioRisk : ℚ
  maxDailyLoss : ℚ
  stopLossPercentage : ℚ
  maxOpenPositions : ℕ
  correlationLimit : ℚ
deriving DecidableEq

/-- The default `riskParameters` object of `RiskManager`. -/
def defaultRiskParameters : RiskParameters :=
  ⟨10, 100000, 5 / 100, 5000, 2 / 100, 20, 7 / 10⟩

/-- An open position as read by the risk checks; of the `Position` interface
only the fields `evaluateNewPosition` and `calculateSymbolCorrelation`
consult are carried. -/
structure Position where
  symbol : String
  size : ℚ
deriving DecidableEq

/-- `RiskManager.calculateSymbolCorrelation`: positions on the same symbol
are treated as 0.8-correlated, otherwise 0. -/
def calculateSymbolCorrelation (symbol : String) (positions : List Position) : ℚ :=
  if 0 < (positions.filter (fun pos => decide (pos.symbol = symbol))).length then 4 / 5 else 0

/-- Result record of `evaluateNewPosition`.  The source interpolates the
offending numbers into its reason strings; the embedding keeps one fixed
string per check. -/
structure RiskEvaluation where
  canOpen : Bool
  reasons : List String
deriving DecidableEq

/-- The JS comparison `positionSize / portfolioValue > maxPortfolioRisk`.
When `portfolioValue = 0`, JS division yields `Infinity` (or `NaN` for
`0/0`), so the comparison holds exactly when `positionSize > 0`; rational
division would instead give `0`. -/
def portfolioRiskExceeded (positionSize portfolioValue maxPortfolioRisk : ℚ) : Bool :=
  if portfolioValue = 0 then decide (0 < positionSize)
  else decide (maxPortfolioRisk < positionSize / portfolioValue)

def reasonMaxSize : String := "Position size exceeds maximum"
def reasonMaxOpen : String := "Maximum number of positions reached"
def reasonPortfolioRisk : String := "Position would exceed max portfolio risk"
def reasonCorrelation : String := "High correlation with existing positions"
def reasonAllCriteriaMet : String := "Position meets all risk criteria"

/-- `RiskManager.evaluateNewPosition` (lines 30-82): runs all four checks in
order, accumulating a reason per failing check; `canOpen` starts `true` and
is forced `false` by every failing check.  The `exchange` argument is
accepted but, as in the source, never read. -/
def evaluateNewPosition (symbol exchange : String) (positionSize : ℚ)
    (currentPositions : List Position) (portfolioValue : ℚ)
    (riskParameters : RiskParameters) : RiskEvaluation :=
  let st1 : Bool × List String :=
    if riskParameters.maxPositionSize < positionSize then
      (false, [reasonMaxSize])
    else (true, [])
  let st2 : Bool × List String :=
    if riskParameters.maxOpenPositions ≤ currentPositions.length then
      (false, st1.2 ++ [reasonMaxOpen])
    else st1
  let st3 : Bool × List String :=
    if portfolioRiskExceeded positionSize portfolioValue riskParameters.maxPortfolioRisk then
      (false, st2.2 ++ [reasonPortfolioRisk])
    else st2
  let correlation := calculateSymbolCorrelation symbol currentPositions
  let st4 : Bool × List String :=
    if riskParameters.correlationLimit < correlation then
      (false, st3.2 ++ [reasonCorrelation])
    else st3
  if st4.1 then ⟨true, st4.2 ++ [reasonAllCriteriaMet]⟩ else ⟨false, st4.2⟩

/-- Characterisation of `evaluateNewPosition.canOpen`: it is `true` exactly
when none of the four checks fails. -/
theorem evaluateNewPosition_canOpen_iff (symbol exchange : String) (positionSize : ℚ)
    (currentPositions : List Position) (portfolioValue : ℚ) (p : RiskParameters) :
    (evaluateNewPosition symbol exchange positionSize currentPositions portfolioValue p).canOpen
      = true ↔
    ¬ (p.maxPositionSize < positionSize) ∧
    ¬ (p.maxOpenPositions ≤ currentPositions.length) ∧
    portfolioRiskExceeded positionSize portfolioValue p.maxPortfolioRisk = false ∧
    ¬ (p.correlationLimit < calculateSymbolCorrelation symbol currentPositions) := by
  unfold evaluateNewPosition
  by_cases h1 : p.maxPositionSize < positionSize <;>
    by_cases h2 : p.maxOpenPositions ≤ currentPositions.length <;>
      by_cases h3 : portfolioRiskExceeded positionSize portfolioValue p.maxPortfolioRisk = true <;>
        by_cases h4 : p.correlationLimit < calculateSymbolCorrelation symbol currentPositions <;>
          simp [h1, h2, h3, h4, reasonMaxSize, reasonMaxOpen, reasonPortfolioRisk,
            reasonCorrelation, reasonAllCriteriaMet]

/-- Each failing check contributes its reason to the returned list. -/
theorem evaluateNewPosition_reasons (symbol exchange : String) (positionSize : ℚ)
    (currentPositions : List Position) (portfolioValue : ℚ) (p : RiskParameters) :
    (p.maxPositionSize < positionSize →
      reasonMaxSize ∈
        (evaluateNewPosition symbol exchange positionSize currentPositions portfolioValue p).reasons) ∧
    (p.maxOpenPositions ≤ currentPositions.length →
      reasonMaxOpen ∈
        (evaluateNewPosition symbol exchange positionSize currentPositions portfolioValue p).reasons) ∧
    (portfolioRiskExceeded positionSize portfolioValue p.maxPortfolioRisk = true →
      reasonPortfolioRisk ∈
        (evaluateNewPosition symbol exchange positionSize currentPositions portfolioValue p).reasons) ∧
    (p.correlationLimit < calculateSymbolCorrelation symbol currentPositions →
      reasonCorrelation ∈
        (evaluateNewPosition symbol exchange positionSize currentPositions portfolioValue p).reasons) := by
  unfold evaluateNewPosition
  by_cases h1 : p.maxPositionSize < positionSize <;>
    by_cases h2 : p.maxOpenPositions ≤ currentPositions.length <;>
      by_cases h3 : portfolioRiskExceeded positionSize portfolioValue p.maxPortfolioRisk = true <;>
        by_cases h4 : p.correlationLimit < calculateSymbolCorrelation symbol currentPositions <;>
          simp [h1, h2, h3, h4, reasonMaxSize, reasonMaxOpen, reasonPortfolioRisk,
            reasonCorrelation, reasonAllCriteriaMet]

/-! ## Opportunity filter (`opportunity-filter.ts`) -/

/-- A raw opportunity object as pushed onto `this.rawOpportunities` by the
scenario collectors in `auto-trade.scheduler.ts`; `strategy` is set only by
scenario 5. -/
structure RawOpp where
  scenarioId : ℕ
  symbol : String
  longExchange : String
  shortExchange : String
  longFundingRate : ℚ
  shortFundingRate : ℚ
  expectedProfit : ℚ
  strategy : Option String
  timestamp : ℤ
deriving DecidableEq, Inhabited

/-- `SimpleOpportunity` from `opportunity-filter.ts`; the two optional
funding-time fields of the TS interface are carried as options (they are
never set by `filterBestBySymbol` and never read by the trade execution). -/
structure SimpleOpportunity where
  symbol : String
  scenarioId : ℕ
  scenarioName : String
  longExchange : String
  shortExchange : String
  longFundingRate : ℚ
  shortFundingRate : ℚ
  longNextFundingTime : Option ℤ
  shortNextFundingTime : Option ℤ
  expectedProfit : ℚ
  timestamp : ℤ
deriving DecidableEq, Inhabited

/-- `OpportunityFilter.getScenarioName`. -/
def getScenarioName (scenarioId : ℕ) : String :=
  match scenarioId with
  | 1 => "Funding trái dấu"
  | 2 => "Funding lệch biên độ"
  | 3 => "Gap giá futures"
  | 4 => "Timing desync"
  | 5 => "Funding đồng pha mạnh"
  | _ => "Scenario " ++ toString scenarioId

/-- One step of the symbol-grouping loop of `filterBestBySymbol`; the JS
`Map` keyed by symbol is an insertion-ordered association list. -/
def addToGroups (acc : List (String × List RawOpp)) (o : RawOpp) :
    List (String × List RawOpp) :=
  if acc.any (fun p => decide (p.1 = o.symbol)) then
    acc.map (fun p => if p.1 = o.symbol then (p.1, p.2 ++ [o]) else p)
  else acc ++ [(o.symbol, [o])]

/-- The `groupedBySymbol` map built by the first loop of
`filterBestBySymbol`. -/
def groupBySymbol (opportunities : List RawOpp) : List (String × List RawOpp) :=
  opportunities.foldl addToGroups []

/-- The descending-`expectedProfit` ordering used by both JS sorts in
`filterBestBySymbol` (comparator `(a, b) => b.expectedProfit - a.expectedProfit`). -/
def profitDescRaw (a b : RawOpp) : Prop := b.expectedProfit ≤ a.expectedProfit

instance : DecidableRel profitDescRaw :=
  fun a b => inferInstanceAs (Decidable (b.expectedProfit ≤ a.expectedProfit))

instance : IsTotal RawOpp profitDescRaw :=
  ⟨fun a b => le_total b.expectedProfit a.expectedProfit⟩

instance : IsTrans RawOpp profitDescRaw :=
  ⟨fun _ _ _ h1 h2 => le_trans h2 h1⟩

/-- Same ordering on the simplified records. -/
def profitDescSimple (a b : SimpleOpportunity) : Prop :=
  b.expectedProfit ≤ a.expectedProfit

instance : DecidableRel profitDescSimple :=
  fun a b => inferInstanceAs (Decidable (b.expectedProfit ≤ a.expectedProfit))

instance : IsTotal SimpleOpportunity profitDescSimple :=
  ⟨fun a b => le_total b.expectedProfit a.expectedProfit⟩

instance : IsTrans SimpleOpportunity profitDescSimple :=
  ⟨fun _ _ _ h1 h2 => le_trans h2 h1⟩

/-- `const sorted = symOpps.sort(desc); const best = sorted[0]` from
`filterBestBySymbol` (each group is nonempty by construction, so the JS
index `[0]` is total). -/
def bestOf (symOpps : List RawOpp) : RawOpp :=
  (List.insertionSort profitDescRaw symOpps).head!

/-- The record literal pushed onto `bestOpportunities` in
`filterBestBySymbol`. -/
def toSimple (best : RawOpp) : SimpleOpportunity :=
  { symbol := best.symbol
    scenarioId := best.scenarioId
    scenarioName := getScenarioName best.scenarioId
    longExchange := best.longExchange
    shortExchange := best.shortExchange
    longFundingRate := best.longFundingRate
    shortFundingRate := best.shortFundingRate
    longNextFundingTime := none
    shortNextFundingTime := none
    expectedProfit := best.expectedProfit
    timestamp := best.timestamp }

/-- `OpportunityFilter.filterBestBySymbol`: group by symbol, keep each
group's best, then sort the winners descending by profit. -/
def filterBestBySymbol (opportunities : List RawOpp) : List SimpleOpportunity :=
  List.insertionSort profitDescSimple
    ((groupBySymbol opportunities).map (fun p => toSimple (bestOf p.2)))

/-- `OpportunityFilter.getTopOpportunities` (`slice(0, limit)` is `take`). -/
def getTopOpportunities (opportunities : List RawOpp) (limit : ℕ) :
    List SimpleOpportunity :=
  (filterBestBySymbol opportunities).take limit

/-- Invariant of the grouping map: keys are distinct, every group is
nonempty, carries its key's symbol, and draws its members from `S`. -/
def GroupsOK (S : List RawOpp) (acc : List (String × List RawOpp)) : Prop :=
  (acc.map Prod.fst).Nodup ∧
  ∀ p ∈ acc, p.2 ≠ [] ∧ ∀ x ∈ p.2, x.symbol = p.1 ∧ x ∈ S

theorem addToGroups_keys (acc : List (String × List RawOpp)) (o : RawOpp)
    (h : (acc.map Prod.fst).Nodup) : (addToGroups acc o).map Prod.fst =
      if acc.any (fun p => decide (p.1 = o.symbol)) then acc.map Prod.fst
      else acc.map Prod.fst ++ [o.symbol] := by
  unfold addToGroups
  split_ifs with hmem
  · rw [List.map_map]
    apply List.map_congr_left
    intro p hp
    by_cases hps : p.1 = o.symbol <;> simp [hps]
  · simp

theorem addToGroups_ok {S : List RawOpp} {acc : List (String × List RawOpp)} {o : RawOpp}
    (h : GroupsOK S acc) (ho : o ∈ S) : GroupsOK S (addToGroups acc o) := by
  obtain ⟨hkeys, hmem⟩ := h
  constructor
  · rw [addToGroups_keys acc o hkeys]
    split_ifs with hany
    · exact hkeys
    · refine hkeys.append (List.nodup_singleton _) ?_
      intro s hs hs'
      simp only [List.mem_singleton] at hs'
      subst hs'
      simp only [List.any_eq_true, decide_eq_true_eq] at hany
      obtain ⟨p, hp, hps⟩ := List.mem_map.mp hs
      exact hany ⟨p, hp, hps⟩
  · intro p hp
    unfold addToGroups at hp
    split_ifs at hp with hany
    · obtain ⟨q, hq, hpq⟩ := List.mem_map.mp hp
      by_cases hqs : q.1 = o.symbol
      · rw [if_pos hqs] at hpq
        subst hpq
        refine ⟨by simp, ?_⟩
        intro x hx
        rcases List.mem_append.mp hx with hx | hx
        · exact (hmem q hq).2 x hx
        · simp only [List.mem_singleton] at hx
          subst hx
          exact ⟨hqs.symm, ho⟩
      · rw [if_neg hqs] at hpq
        subst hpq
        exact hmem q hq
    · rcases List.mem_append.mp hp with hp | hp
      · exact hmem p hp
      · simp only [List.mem_singleton] at hp
        subst hp
        refine ⟨by simp, ?_⟩
        intro x hx
        simp only [List.mem_singleton] at hx
        subst hx
        exact ⟨rfl, ho⟩

theorem foldl_addToGroups_ok {S : List RawOpp} :
    ∀ (l : List RawOpp) (acc : List (String × List RawOpp)),
      GroupsOK S acc → (∀ x ∈ l, x ∈ S) → GroupsOK S (l.foldl addToGroups acc)
  | [], acc, hacc, _ => hacc
  | o :: l, acc, hacc, hl => by
    rw [List.foldl_cons]
    exact foldl_addToGroups_ok l (addToGroups acc o)
      (addToGroups_ok hacc (hl o (by simp)))
      (fun x hx => hl x (by simp [hx]))

theorem groupBySymbol_ok (l : List RawOpp) : GroupsOK l (groupBySymbol l) :=
  foldl_addToGroups_ok l [] ⟨List.nodup_nil, by simp⟩ (fun _ hx => hx)

/-- Groups only ever grow under `addToGroups`. -/
theorem mem_addToGroups_of_mem {acc : List (String × List RawOpp)} {o x : RawOpp}
    {p : String × List RawOpp} (hp : p ∈ acc) (hx : x ∈ p.2) :
    ∃ q ∈ addToGroups acc o, x ∈ q.2 := by
  unfold addToGroups
  split_ifs with hany
  · by_cases hps : p.1 = o.symbol
    · exact ⟨(p.1, p.2 ++ [o]), List.mem_map.mpr ⟨p, hp, by rw [if_pos hps]⟩, by simp [hx]⟩
    · exact ⟨p, List.mem_map.mpr ⟨p, hp, by rw [if_neg hps]⟩, hx⟩
  · exact ⟨p, List.mem_append_left _ hp, hx⟩

/-- The inserted opportunity lands in some group. -/
theorem self_mem_addToGroups (acc : List (String × List RawOpp)) (o : RawOpp) :
    ∃ q ∈ addToGroups acc o, o ∈ q.2 := by
  unfold addToGroups
  split_ifs with hany
  · simp only [List.any_eq_true, decide_eq_true_eq] at hany
    obtain ⟨p, hp, hps⟩ := hany
    exact ⟨(p.1, p.2 ++ [o]), List.mem_map.mpr ⟨p, hp, by rw [if_pos hps]⟩, by simp⟩
  · exact ⟨(o.symbol, [o]), List.mem_append_right _ (by simp), by simp⟩

theorem foldl_addToGroups_complete :
    ∀ (l : List RawOpp) (acc : List (String × List RawOpp)) (x : RawOpp),
      (x ∈ l ∨ ∃ p ∈ acc, x ∈ p.2) → ∃ p ∈ l.foldl addToGroups acc, x ∈ p.2
  | [], acc, x, h => by
    rcases h with h | h
    · cases h
    · exact h
  | o :: l, acc, x, h => by
    rw [List.foldl_cons]
    apply foldl_addToGroups_complete l (addToGroups acc o) x
    rcases h with h | ⟨p, hp, hx⟩
    · rcases List.mem_cons.mp h with rfl | h
      · exact Or.inr (self_mem_addToGroups acc x)
      · exact Or.inl h
    · exact Or.inr (mem_addToGroups_of_mem hp hx)

theorem groupBySymbol_complete {l : List RawOpp} {x : RawOpp} (hx : x ∈ l) :
    ∃ p ∈ groupBySymbol l, x ∈ p.2 :=
  foldl_addToGroups_complete l [] x (Or.inl hx)

/-- With distinct keys, two bindings of the same key have the same group. -/
theorem snd_eq_of_keysNodup :
    ∀ {acc : List (String × List RawOpp)}, (acc.map Prod.fst).Nodup →
      ∀ {p q : String × List RawOpp}, p ∈ acc → q ∈ acc → p.1 = q.1 → p.2 = q.2
  | [], _, _, _, hp, _, _ => by cases hp
  | a :: acc, h, p, q, hp, hq, hpq => by
    rw [List.map_cons, List.nodup_cons] at h
    rcases List.mem_cons.mp hp with hpa | hp2
    · rcases List.mem_cons.mp hq with hqa | hq2
      · rw [hpa, hqa]
      · exact absurd
          (List.mem_map.mpr ⟨q, hq2, hpq.symm.trans (congrArg Prod.fst hpa)⟩) h.1
    · rcases List.mem_cons.mp hq with hqa | hq2
      · exact absurd
          (List.mem_map.mpr ⟨p, hp2, hpq.trans (congrArg Prod.fst hqa)⟩) h.1
      · exact snd_eq_of_keysNodup h.2 hp2 hq2 hpq

theorem bestOf_mem {g : List RawOpp} (h : g ≠ []) : bestOf g ∈ g := by
  have hperm := List.perm_insertionSort profitDescRaw g
  have hne : List.insertionSort profitDescRaw g ≠ [] := by
    intro hnil
    exact h (List.eq_nil_of_length_eq_zero (by rw [← hperm.length_eq, hnil]; rfl))
  exact hperm.mem_iff.mp (List.head!_mem_self hne)

theorem bestOf_le {g : List RawOpp} {x : RawOpp} (hx : x ∈ g) :
    x.expectedProfit ≤ (bestOf g).expectedProfit := by
  have hsorted := List.sorted_insertionSort profitDescRaw g
  have hmem : x ∈ List.insertionSort profitDescRaw g :=
    (List.perm_insertionSort profitDescRaw g).mem_iff.mpr hx
  unfold bestOf
  cases hs : List.insertionSort profitDescRaw g with
  | nil => rw [hs] at hmem; cases hmem
  | cons a t =>
    rw [hs] at hmem hsorted
    rcases List.mem_cons.mp hmem with rfl | hmem
    · simp
    · simpa using List.rel_of_sorted_cons hsorted x hmem

/-! ## Scenario collectors (`auto-trade.scheduler.ts`, lines 214-392) -/

/-- The exchange list iterated by every collector. -/
def exchangesList : List String := ["Binance", "Bybit", "OKX"]

/-- `fundingRates.get(exchange) || []` on the JS `Map`. -/
def ratesFor (fundingRates : List (String × List FundingRate)) (exchange : String) :
    List FundingRate :=
  (fundingRates.lookup exchange).getD []

/-- The JS `Set` of a rate list's symbols, in first-occurrence order. -/
def setOfSymbols (rates : List FundingRate) : List String :=
  rates.foldl (fun acc r => if r.symbol ∈ acc then acc else acc ++ [r.symbol]) []

/-- `findCommonSymbols` from `auto-trade.scheduler.ts`. -/
def findCommonSymbols (rates1 rates2 : List FundingRate) : List String :=
  (setOfSymbols rates1).filter
    (fun symbol => decide (symbol ∈ rates2.map (fun r => r.symbol)))

/-- Body of the innermost loop of `collectOppositeSignOpportunities`
(lines 248-282): the candidate pushed for one symbol of one ordered exchange
pair, or `none` when the rule declines. -/
def oppositeSignCandidate (scenario : Scenario) (exchange1 exchange2 : String)
    (rates1 rates2 : List FundingRate) (symbol : String) (now : ℤ) : Option RawOpp :=
  match rates1.find? (fun r => decide (r.symbol = symbol)),
        rates2.find? (fun r => decide (r.symbol = symbol)) with
  | some rate1, some rate2 =>
    if isOppositeSign rate1.fundingRate rate2.fundingRate then
      let expectedProfit :=
        calculateExpectedProfit scenario.id rate1.fundingRate rate2.fundingRate none none
      if scenario.minProfitThreshold ≤ expectedProfit then
        some
          { scenarioId := scenario.id
            symbol := symbol
            longExchange := if rate1.fundingRate < 0 then exchange1 else exchange2
            shortExchange := if rate1.fundingRate < 0 then exchange2 else exchange1
            longFundingRate :=
              if rate1.fundingRate < 0 then rate1.fundingRate else rate2.fundingRate
            shortFundingRate :=
              if rate1.fundingRate < 0 then rate2.fundingRate else rate1.fundingRate
            expectedProfit := expectedProfit
            strategy := none
            timestamp := now }
      else none
    else none
  | _, _ => none

/-- `collectOppositeSignOpportunities` (scenario 1): all ordered exchange
pairs, all common symbols. -/
def collectOppositeSignOpportunities (scenario : Scenario)
    (fundingRates : List (String × List FundingRate)) (now : ℤ) : List RawOpp :=
  exchangesList.flatMap (fun exchange1 =>
    exchangesList.flatMap (fun exchange2 =>
      if exchange1 = exchange2 then []
      else
        (findCommonSymbols (ratesFor fundingRates exchange1)
            (ratesFor fundingRates exchange2)).filterMap
          (fun symbol =>
            oppositeSignCandidate scenario exchange1 exchange2
              (ratesFor fundingRates exchange1) (ratesFor fundingRates exchange2)
              symbol now)))

/-- Body of the innermost loop of
`collectSameSignDifferentRateOpportunities` (lines 299-331). -/
def sameSignCandidate (scenario : Scenario) (exchange1 exchange2 : String)
    (rates1 rates2 : List FundingRate) (symbol : String) (now : ℤ) : Option RawOpp :=
  match rates1.find? (fun r => decide (r.symbol = symbol)),
        rates2.find? (fun r => decide (r.symbol = symbol)) with
  | some rate1, some rate2 =>
    if isSameSign rate1.fundingRate rate2.fundingRate then
      let expectedProfit :=
        calculateExpectedProfit scenario.id rate1.fundingRate rate2.fundingRate none none
      if scenario.minProfitThreshold ≤ expectedProfit then
        some
          { scenarioId := scenario.id
            symbol := symbol
            longExchange :=
              if rate1.fundingRate < rate2.fundingRate then exchange1 else exchange2
            shortExchange :=
              if rate1.fundingRate < rate2.fundingRate then exchange2 else exchange1
            longFundingRate := min rate1.fundingRate rate2.fundingRate
            shortFundingRate := max rate1.fundingRate rate2.fundingRate
            expectedProfit := expectedProfit
            strategy := none
            timestamp := now }
      else none
    else none
  | _, _ => none

/-- `collectSameSignDifferentRateOpportunities` (scenario 2). -/
def collectSameSignDifferentRateOpportunities (scenario : Scenario)
    (fundingRates : List (String × List FundingRate)) (now : ℤ) : List RawOpp :=
  exchangesList.flatMap (fun exchange1 =>
    exchangesList.flatMap (fun exchange2 =>
      if exchange1 = exchange2 then []
      else
        (findCommonSymbols (ratesFor fundingRates exchange1)
            (ratesFor fundingRates exchange2)).filterMap
          (fun symbol =>
            sameSignCandidate scenario exchange1 exchange2
              (ratesFor fundingRates exchange1) (ratesFor fundingRates exchange2)
              symbol now)))

/-- `collectPriceGapOpportunities` (scenario 3): the source body is empty. -/
def collectPriceGapOpportunities (scenario : Scenario)
    (fundingRates : List (String × List FundingRate)) (now : ℤ) : List RawOpp :=
  []

/-- `collectTimingDesyncOpportunities` (scenario 4): the source body is
empty. -/
def collectTimingDesyncOpportunities (scenario : Scenario)
    (fundingRates : List (String × List FundingRate)) (now : ℤ) : List RawOpp :=
  []

/-- Body of the innermost loop of
`collectHighSameDirectionOpportunities` (lines 357-389); note the push is
guarded by `min(|r1|, |r2|) ≥ threshold && sameSign`, not by a check on
`expectedProfit`. -/
def highSameDirectionCandidate (scenario : Scenario) (exchange1 exchange2 : String)
    (rates1 rates2 : List FundingRate) (symbol : String) (now : ℤ) : Option RawOpp :=
  match rates1.find? (fun r => decide (r.symbol = symbol)),
        rates2.find? (fun r => decide (r.symbol = symbol)) with
  | some rate1, some rate2 =>
    if scenario.minProfitThreshold ≤ min |rate1.fundingRate| |rate2.fundingRate| ∧
        isSameSign rate1.fundingRate rate2.fundingRate = true then
      some
        { scenarioId := scenario.id
          symbol := symbol
          longExchange := exchange1
          shortExchange := exchange2
          longFundingRate := rate1.fundingRate
          shortFundingRate := rate2.fundingRate
          expectedProfit :=
            calculateExpectedProfit scenario.id rate1.fundingRate rate2.fundingRate none none
          strategy :=
            some (if decide (rate1.fundingRate < 0) && decide (rate2.fundingRate < 0) then
              "LONG_BOTH" else "SHORT_BOTH")
          timestamp := now }
    else none
  | _, _ => none

/-- `collectHighSameDirectionOpportunities` (scenario 5). -/
def collectHighSameDirectionOpportunities (scenario : Scenario)
    (fundingRates : List (String × List FundingRate)) (now : ℤ) : List RawOpp :=
  exchangesList.flatMap (fun exchange1 =>
    exchangesList.flatMap (fun exchange2 =>
      if exchange1 = exchange2 then []
      else
        (findCommonSymbols (ratesFor fundingRates exchange1)
            (ratesFor fundingRates exchange2)).filterMap
          (fun symbol =>
            highSameDirectionCandidate scenario exchange1 exchange2
              (ratesFor fundingRates exchange1) (ratesFor fundingRates exchange2)
              symbol now)))

/-- `collectScenarioOpportunities`: the switch on `scenario.id`. -/
def collectScenarioOpportunities (scenario : Scenario)
    (fundingRates : List (String × List FundingRate)) (now : ℤ) : List RawOpp :=
  match scenario.id with
  | 1 => collectOppositeSignOpportunities scenario fundingRates now
  | 2 => collectSameSignDifferentRateOpportunities scenario fundingRates now
  | 3 => collectPriceGapOpportunities scenario fundingRates now
  | 4 => collectTimingDesyncOpportunities scenario fundingRates now
  | 5 => collectHighSameDirectionOpportunities scenario fundingRates now
  | _ => []

/-- The five scenario records of the scheduler's `config.scenarios`. -/
def defaultScenarios : List Scenario :=
  [⟨1, "Funding trái dấu (kinh điển)", 1 / 1000, "LOW"⟩,
   ⟨2, "Funding lệch biên độ", 25 / 10000, "MEDIUM"⟩,
   ⟨3, "Funding đồng nhất + Gap giá", 25 / 10000, "MEDIUM"⟩,
   ⟨4, "Funding lệch thời gian (desync)", 5 / 10000, "HIGH"⟩,
   ⟨5, "Funding đồng pha mạnh (cả 2 cùng cao)", 4 / 1000, "HIGH"⟩]

theorem oppositeSignCandidate_profit {scenario : Scenario} {e1 e2 : String}
    {rates1 rates2 : List FundingRate} {symbol : String} {now : ℤ} {o : RawOpp}
    (h : oppositeSignCandidate scenario e1 e2 rates1 rates2 symbol now = some o) :
    scenario.minProfitThreshold ≤ o.expectedProfit := by
  unfold oppositeSignCandidate at h
  cases hf1 : rates1.find? (fun r => decide (r.symbol = symbol)) with
  | none => simp [hf1] at h
  | some rate1 =>
    cases hf2 : rates2.find? (fun r => decide (r.symbol = symbol)) with
    | none => simp [hf1, hf2] at h
    | some rate2 =>
      rw [hf1, hf2] at h
      dsimp only at h
      split_ifs at h <;> cases h <;> assumption

theorem sameSignCandidate_profit {scenario : Scenario} {e1 e2 : String}
    {rates1 rates2 : List FundingRate} {symbol : String} {now : ℤ} {o : RawOpp}
    (h : sameSignCandidate scenario e1 e2 rates1 rates2 symbol now = some o) :
    scenario.minProfitThreshold ≤ o.expectedProfit := by
  unfold sameSignCandidate at h
  cases hf1 : rates1.find? (fun r => decide (r.symbol = symbol)) with
  | none => simp [hf1] at h
  | some rate1 =>
    cases hf2 : rates2.find? (fun r => decide (r.symbol = symbol)) with
    | none => simp [hf1, hf2] at h
    | some rate2 =>
      rw [hf1, hf2] at h
      dsimp only at h
      split_ifs at h <;> cases h <;> assumption

theorem highSameDirectionCandidate_props {scenario : Scenario} {e1 e2 : String}
    {rates1 rates2 : List FundingRate} {symbol : String} {now : ℤ} {o : RawOpp}
    (h : highSameDirectionCandidate scenario e1 e2 rates1 rates2 symbol now = some o) :
    isSameSign o.longFundingRate o.shortFundingRate = true ∧
    scenario.minProfitThreshold ≤ min |o.longFundingRate| |o.shortFundingRate| := by
  unfold highSameDirectionCandidate at h
  cases hf1 : rates1.find? (fun r => decide (r.symbol = symbol)) with
  | none => simp [hf1] at h
  | some rate1 =>
    cases hf2 : rates2.find? (fun r => decide (r.symbol = symbol)) with
    | none => simp [hf1, hf2] at h
    | some rate2 =>
      rw [hf1, hf2] at h
      dsimp only at h
      split_ifs at h with hcond hstrat <;> cases h <;> exact ⟨hcond.2, hcond.1⟩

/-- Shared shape of the three implemented collectors: a member comes from
some candidate call. -/
theorem mem_collector_elim {f : String → String → String → Option RawOpp}
    {fundingRates : List (String × List FundingRate)} {o : RawOpp}
    (h : o ∈ exchangesList.flatMap (fun exchange1 =>
      exchangesList.flatMap (fun exchange2 =>
        if exchange1 = exchange2 then []
        else
          (findCommonSymbols (ratesFor fundingRates exchange1)
              (ratesFor fundingRates exchange2)).filterMap
            (fun symbol => f exchange1 exchange2 symbol)))) :
    ∃ e1 e2 symbol, f e1 e2 symbol = some o := by
  simp only [List.mem_flatMap] at h
  obtain ⟨e1, -, e2, -, h⟩ := h
  split at h
  · cases h
  · obtain ⟨symbol, -, hc⟩ := List.mem_filterMap.mp h
    exact ⟨e1, e2, symbol, hc⟩

/-- C2 (amended): rules 1 and 2 append a candidate only when
`expectedProfit ≥ minProfitThreshold`; rules 3 and 4 append nothing; rule 5
(SameDirectionHighRate) instead admits via
`min(|r1|, |r2|) ≥ minProfitThreshold` together with equal signs, with no
check on `expectedProfit`. -/
theorem c2_admission_per_rule (scenario : Scenario)
    (fundingRates : List (String × List FundingRate)) (now : ℤ) :
    (∀ o ∈ collectOppositeSignOpportunities scenario fundingRates now,
      scenario.minProfitThreshold ≤ o.expectedProfit) ∧
    (∀ o ∈ collectSameSignDifferentRateOpportunities scenario fundingRates now,
      scenario.minProfitThreshold ≤ o.expectedProfit) ∧
    collectPriceGapOpportunities scenario fundingRates now = [] ∧
    collectTimingDesyncOpportunities scenario fundingRates now = [] ∧
    (∀ o ∈ collectHighSameDirectionOpportunities scenario fundingRates now,
      isSameSign o.longFundingRate o.shortFundingRate = true ∧
      scenario.minProfitThreshold ≤ min |o.longFundingRate| |o.shortFundingRate|) := by
  refine ⟨?_, ?_, rfl, rfl, ?_⟩
  · intro o ho
    obtain ⟨e1, e2, symbol, hc⟩ := mem_collector_elim ho
    exact oppositeSignCandidate_profit hc
  · intro o ho
    obtain ⟨e1, e2, symbol, hc⟩ := mem_collector_elim ho
    exact sameSignCandidate_profit hc
  · intro o ho
    obtain ⟨e1, e2, symbol, hc⟩ := mem_collector_elim ho
    exact highSameDirectionCandidate_props hc

/-- The fifth configured scenario (SameDirectionHighRate, threshold 0.004). -/
def scenario5 : Scenario := ⟨5, "Funding đồng pha mạnh (cả 2 cùng cao)", 4 / 1000, "HIGH"⟩

/-- Concrete snapshot for C2: the same symbol funding at +0.005 on both
exchanges. -/
def cexFundingRates : List (String × List FundingRate) :=
  [("Binance", [⟨"AAAUSDT", 5 / 1000, 0⟩]), ("Bybit", [⟨"AAAUSDT", 5 / 1000, 0⟩])]

/-- The opportunity scenario 5 appends for `cexFundingRates` (Binance/Bybit
pair): expected profit |0.005 − 0.005| = 0, below the 0.004 threshold. -/
def cexOpp : RawOpp :=
  ⟨5, "AAAUSDT", "Binance", "Bybit", 5 / 1000, 5 / 1000, 0, some "SHORT_BOTH", 0⟩

/-- Evaluation of the scenario-5 candidate builder on the concrete
snapshot. -/
theorem cexCandidate_eval :
    highSameDirectionCandidate scenario5 "Binance" "Bybit"
      (ratesFor cexFundingRates "Binance") (ratesFor cexFundingRates "Bybit")
      "AAAUSDT" 0 = some cexOpp := by
  rw [show ratesFor cexFundingRates "Binance" = [⟨"AAAUSDT", 5 / 1000, 0⟩] from rfl]
  rw [show ratesFor cexFundingRates "Bybit" = [⟨"AAAUSDT", 5 / 1000, 0⟩] from rfl]
  unfold highSameDirectionCandidate
  rw [show List.find? (fun r => decide (r.symbol = "AAAUSDT"))
      [(⟨"AAAUSDT", 5 / 1000, 0⟩ : FundingRate)] = some ⟨"AAAUSDT", 5 / 1000, 0⟩ from rfl]
  dsimp only
  have habs : |(5 / 1000 : ℚ)| = 5 / 1000 := abs_of_pos (by norm_num)
  rw [if_pos (by
    constructor
    · rw [min_self, habs]
      norm_num [scenario5]
    · simp only [isSameSign, Bool.or_eq_true, Bool.and_eq_true, decide_eq_true_eq]
      norm_num)]
  rw [if_neg (by
    simp only [Bool.and_eq_true, decide_eq_true_eq, not_and]
    intro h
    norm_num at h)]
  norm_num [cexOpp, calculateExpectedProfit, scenario5, habs]

/-- The concrete scenario-5 run appends `cexOpp`. -/
theorem cexOpp_mem :
    cexOpp ∈ collectHighSameDirectionOpportunities scenario5 cexFundingRates 0 := by
  unfold collectHighSameDirectionOpportunities
  simp only [exchangesList, List.mem_flatMap]
  refine ⟨"Binance", by simp, "Bybit", by simp, ?_⟩
  rw [if_neg (by decide)]
  apply List.mem_filterMap.mpr
  refine ⟨"AAAUSDT", ?_, cexCandidate_eval⟩
  rw [show findCommonSymbols (ratesFor cexFundingRates "Binance")
      (ratesFor cexFundingRates "Bybit") = ["AAAUSDT"] from rfl]
  simp

/-- Counterexample for C2 as stated: scenario 5 appends `cexOpp` to the raw
opportunity list although its `expectedProfit` (0) is strictly below the
rule's `minProfitThreshold` (0.004). -/
theorem c2_counterexample_rule5 :
    cexOpp ∈ collectHighSameDirectionOpportunities scenario5 cexFundingRates 0 ∧
    cexOpp.expectedProfit < scenario5.minProfitThreshold :=
  ⟨cexOpp_mem, by norm_num [cexOpp, scenario5]⟩

/-- Witness for the amended C2, applying it to the concrete scenario-5 run:
the appended `cexOpp` indeed satisfies the rule's real admission condition. -/
theorem c2_admission_witness :
    isSameSign cexOpp.longFundingRate cexOpp.shortFundingRate = true ∧
    scenario5.minProfitThreshold ≤ min |cexOpp.longFundingRate| |cexOpp.shortFundingRate| :=
  (c2_admission_per_rule scenario5 cexFundingRates 0).2.2.2.2 cexOpp cexOpp_mem

/-- C3: the ranker returns at most one entry per symbol; the entry kept for a
symbol achieves the maximum `expectedProfit` among that symbol's inputs; the
output is sorted descending by `expectedProfit`; its length is at most
`limit`; and the empty input yields the empty list. -/
theorem c3_ranker (opportunities : List RawOpp) (limit : ℕ) :
    (getTopOpportunities opportunities limit).Pairwise
      (fun a b => a.symbol ≠ b.symbol) ∧
    (∀ o ∈ getTopOpportunities opportunities limit,
      (∃ i ∈ opportunities, i.symbol = o.symbol ∧ i.expectedProfit = o.expectedProfit) ∧
      ∀ i ∈ opportunities, i.symbol = o.symbol → i.expectedProfit ≤ o.expectedProfit) ∧
    (getTopOpportunities opportunities limit).Pairwise
      (fun a b => b.expectedProfit ≤ a.expectedProfit) ∧
    (getTopOpportunities opportunities limit).length ≤ limit ∧
    getTopOpportunities [] limit = [] := by
  have hok := groupBySymbol_ok opportunities
  set G := groupBySymbol opportunities with hG
  set simples := G.map (fun p => toSimple (bestOf p.2)) with hsimples
  have hout : getTopOpportunities opportunities limit
      = (List.insertionSort profitDescSimple simples).take limit := rfl
  have hperm := List.perm_insertionSort profitDescSimple simples
  have hsym : ∀ p ∈ G, (toSimple (bestOf p.2)).symbol = p.1 := by
    intro p hp
    exact ((hok.2 p hp).2 _ (bestOf_mem (hok.2 p hp).1)).1
  refine ⟨?_, ?_, ?_, ?_, ?_⟩
  · have h1 : (simples.map (fun o => o.symbol)).Nodup := by
      rw [hsimples, List.map_map]
      have hmaps : List.map ((fun o => o.symbol) ∘ fun p => toSimple (bestOf p.2)) G
          = List.map Prod.fst G :=
        List.map_congr_left (fun p hp => hsym p hp)
      rw [hmaps]
      exact hok.1
    have h2 : ((List.insertionSort profitDescSimple simples).map
        (fun o => o.symbol)).Nodup :=
      (hperm.map (fun o => o.symbol)).nodup_iff.mpr h1
    have h3 : ((getTopOpportunities opportunities limit).map (fun o => o.symbol)).Nodup := by
      rw [hout]
      exact List.Nodup.sublist ((List.take_sublist _ _).map _) h2
    exact List.pairwise_map.mp h3
  · intro o ho
    rw [hout] at ho
    have ho2 : o ∈ simples := hperm.mem_iff.mp (List.mem_of_mem_take ho)
    obtain ⟨p, hpG, heq⟩ := List.mem_map.mp ho2
    have hne := (hok.2 p hpG).1
    have hbmem := bestOf_mem hne
    have hbsym : (bestOf p.2).symbol = p.1 := ((hok.2 p hpG).2 _ hbmem).1
    have hbinp : bestOf p.2 ∈ opportunities := ((hok.2 p hpG).2 _ hbmem).2
    constructor
    · exact ⟨bestOf p.2, hbinp, by rw [← heq]; rfl, by rw [← heq]; rfl⟩
    · intro i hi hisym
      obtain ⟨q, hqG, hiq⟩ := groupBySymbol_complete hi
      have hiConv := (hok.2 q hqG).2 i hiq
      have hip : i.symbol = p.1 := by
        rw [hisym, ← heq]
        exact hbsym
      have hq1 : q.1 = p.1 := hiConv.1.symm.trans hip
      have hq2 : q.2 = p.2 := snd_eq_of_keysNodup hok.1 hqG hpG hq1
      have hle := bestOf_le (show i ∈ p.2 from hq2 ▸ hiq)
      rw [← heq]
      exact hle
  · rw [hout]
    exact List.Pairwise.sublist (List.take_sublist _ _)
      (List.sorted_insertionSort profitDescSimple simples)
  · rw [hout, List.length_take]
    exact min_le_left _ _
  · show (List.insertionSort profitDescSimple
      ((groupBySymbol []).map (fun p => toSimple (bestOf p.2)))).take limit = []
    rw [show (List.insertionSort profitDescSimple
      ((groupBySymbol []).map (fun p => toSimple (bestOf p.2)))) = [] from rfl]
    exact List.take_nil

/-- Concrete input for the C3 witness: the spec's duplicate-symbol scenario,
two candidates for the same symbol with profits 2 and 5 units. -/
def rawLow : RawOpp :=
  ⟨1, "BTCUSDT", "Binance", "Bybit", -4, 3, 2, none, 0⟩

def rawHigh : RawOpp :=
  ⟨2, "BTCUSDT", "Binance", "Bybit", -4, 3, 5, none, 0⟩

/-- Witness for C3 at a concrete input: with two same-symbol candidates the
ranker's kept entry dominates the lower-profit one. -/
theorem c3_ranker_witness :
    rawLow.expectedProfit ≤ (toSimple rawHigh).expectedProfit :=
  ((c3_ranker [rawLow, rawHigh] 10).2.1 (toSimple rawHigh) (by decide)).2
    rawLow (by decide) (by decide)

/-- C1: the claim says `shouldEmergencyStop` is true iff `dailyPnL < -maxDailyLoss`
and that a profit of any size never triggers the stop.  The source's
`shouldEmergencyStop` (lines 597-602) keeps the abs-value condition
`|dailyPnL| > maxDailyLoss`, so a daily PROFIT of 2000 with
`maxDailyLoss = 1000` triggers the stop, while the spec predicate (also the
fix the repository's CODE_REVIEW.md records) does not fire there. -/
theorem c1_emergencyStop_triggers_on_profit :
    shouldEmergencyStop 2000 1000 = true ∧ shouldEmergencyStopSpec 2000 1000 = false := by
  decide

/-- C4: a candidate strictly above `maxPositionSize` is rejected regardless of
the other checks; at exactly `maxPositionSize` the size check passes, and if
the remaining three checks pass the candidate is allowed. -/
theorem c4_size_gate (symbol exchange : String) (positionSize : ℚ)
    (currentPositions : List Position) (portfolioValue : ℚ) (p : RiskParameters) :
    (p.maxPositionSize < positionSize →
      (evaluateNewPosition symbol exchange positionSize currentPositions portfolioValue p).canOpen
        = false) ∧
    (positionSize = p.maxPositionSize →
      currentPositions.length < p.maxOpenPositions →
      portfolioRiskExceeded positionSize portfolioValue p.maxPortfolioRisk = false →
      calculateSymbolCorrelation symbol currentPositions ≤ p.correlationLimit →
      (evaluateNewPosition symbol exchange positionSize currentPositions portfolioValue p).canOpen
        = true) := by
  have hiff := evaluateNewPosition_canOpen_iff symbol exchange positionSize currentPositions
    portfolioValue p
  constructor
  · intro h
    cases hc : (evaluateNewPosition symbol exchange positionSize currentPositions
        portfolioValue p).canOpen with
    | false => rfl
    | true => exact absurd h (hiff.mp hc).1
  · intro hsz hcount hrisk hcorr
    refine hiff.mpr ⟨?_, Nat.not_le.mpr hcount, hrisk, not_lt.mpr hcorr⟩
    rw [hsz]
    exact lt_irrefl _

/-- Witness for C4 at concrete inputs: with the default risk parameters
(`maxPositionSize = 100000`), a 100001 candidate is rejected and a 100000
candidate with all other checks passing is allowed. -/
theorem c4_size_gate_witness :
    (evaluateNewPosition "BTCUSDT" "Binance" 100001 [] 10000000 defaultRiskParameters).canOpen
      = false ∧
    (evaluateNewPosition "BTCUSDT" "Binance" 100000 [] 10000000 defaultRiskParameters).canOpen
      = true :=
  ⟨(c4_size_gate "BTCUSDT" "Binance" 100001 [] 10000000 defaultRiskParameters).1
     (by norm_num [defaultRiskParameters]),
   (c4_size_gate "BTCUSDT" "Binance" 100000 [] 10000000 defaultRiskParameters).2
     (by norm_num [defaultRiskParameters]) (by norm_num [defaultRiskParameters])
     (by norm_num [portfolioRiskExceeded, defaultRiskParameters])
     (by norm_num [calculateSymbolCorrelation, defaultRiskParameters])⟩

/-- C5: all four checks are evaluated without short-circuiting: `canOpen` is
`false` iff at least one check fails, and every failing check contributes its
reason to the returned list.  The decision is embedded as a pure function of
its arguments, mirroring the source, which reads but never writes state. -/
theorem c5_risk_gate_collects_all_failures (symbol exchange : String) (positionSize : ℚ)
    (currentPositions : List Position) (portfolioValue : ℚ) (p : RiskParameters) :
    ((evaluateNewPosition symbol exchange positionSize currentPositions portfolioValue p).canOpen
        = false ↔
      (p.maxPositionSize < positionSize ∨
       p.maxOpenPositions ≤ currentPositions.length ∨
       portfolioRiskExceeded positionSize portfolioValue p.maxPortfolioRisk = true ∨
       p.correlationLimit < calculateSymbolCorrelation symbol currentPositions)) ∧
    ((p.maxPositionSize < positionSize →
      reasonMaxSize ∈
        (evaluateNewPosition symbol exchange positionSize currentPositions portfolioValue p).reasons) ∧
    (p.maxOpenPositions ≤ currentPositions.length →
      reasonMaxOpen ∈
        (evaluateNewPosition symbol exchange positionSize currentPositions portfolioValue p).reasons) ∧
    (portfolioRiskExceeded positionSize portfolioValue p.maxPortfolioRisk = true →
      reasonPortfolioRisk ∈
        (evaluateNewPosition symbol exchange positionSize currentPositions portfolioValue p).reasons) ∧
    (p.correlationLimit < calculateSymbolCorrelation symbol currentPositions →
      reasonCorrelation ∈
        (evaluateNewPosition symbol exchange positionSize currentPositions portfolioValue p).reasons)) := by
  have hiff := evaluateNewPosition_canOpen_iff symbol exchange positionSize currentPositions
    portfolioValue p
  refine ⟨⟨?_, ?_⟩,
    evaluateNewPosition_reasons symbol exchange positionSize currentPositions portfolioValue p⟩
  · intro hfalse
    by_contra hno
    push_neg at hno
    obtain ⟨h1, h2, h3, h4⟩ := hno
    have htrue := hiff.mpr
      ⟨not_lt.mpr h1, Nat.not_le.mpr h2, Bool.eq_false_iff.mpr h3, not_lt.mpr h4⟩
    rw [hfalse] at htrue
    exact Bool.false_ne_true htrue
  · intro hor
    cases hc : (evaluateNewPosition symbol exchange positionSize currentPositions
        portfolioValue p).canOpen with
    | false => rfl
    | true =>
      obtain ⟨h1, h2, h3, h4⟩ := hiff.mp hc
      rcases hor with h | h | h | h
      · exact absurd h h1
      · exact absurd h h2
      · rw [h3] at h
        exact absurd h (by decide)
      · exact absurd h h4

/-- Witness for C5 at a concrete input where the size, portfolio-risk and
correlation checks all fail: the decision is `false` and all three reasons
are collected. -/
theorem c5_risk_gate_witness :
    (evaluateNewPosition "ETHUSDT" "Binance" 200000 [⟨"ETHUSDT", 1⟩] 1000000
        defaultRiskParameters).canOpen = false ∧
    reasonMaxSize ∈
      (evaluateNewPosition "ETHUSDT" "Binance" 200000 [⟨"ETHUSDT", 1⟩] 1000000
        defaultRiskParameters).reasons ∧
    reasonPortfolioRisk ∈
      (evaluateNewPosition "ETHUSDT" "Binance" 200000 [⟨"ETHUSDT", 1⟩] 1000000
        defaultRiskParameters).reasons ∧
    reasonCorrelation ∈
      (evaluateNewPosition "ETHUSDT" "Binance" 200000 [⟨"ETHUSDT", 1⟩] 1000000
        defaultRiskParameters).reasons :=
  ⟨(c5_risk_gate_collects_all_failures "ETHUSDT" "Binance" 200000 [⟨"ETHUSDT", 1⟩] 1000000
      defaultRiskParameters).1.mpr (Or.inl (by norm_num [defaultRiskParameters])),
   (c5_risk_gate_collects_all_failures "ETHUSDT" "Binance" 200000 [⟨"ETHUSDT", 1⟩] 1000000
      defaultRiskParameters).2.1 (by norm_num [defaultRiskParameters]),
   (c5_risk_gate_collects_all_failures "ETHUSDT" "Binance" 200000 [⟨"ETHUSDT", 1⟩] 1000000
      defaultRiskParameters).2.2.2.1 (by norm_num [portfolioRiskExceeded, defaultRiskParameters]),
   (c5_risk_gate_collects_all_failures "ETHUSDT" "Binance" 200000 [⟨"ETHUSDT", 1⟩] 1000000
      defaultRiskParameters).2.2.2.2
     (by norm_num [calculateSymbolCorrelation, defaultRiskParameters])⟩

/-- C6: for opposite-sign rates `r1 < 0 < r2` the scenario-1 (OppositeSign)
profit formula returns `|r1| + |r2|` and is symmetric in its two rate
arguments. -/
theorem c6_oppositeSign_profit (r1 r2 : ℚ) (h1 : r1 < 0) (h2 : 0 < r2) :
    calculateExpectedProfit 1 r1 r2 none none = |r1| + |r2| ∧
    calculateExpectedProfit 1 r1 r2 none none = calculateExpectedProfit 1 r2 r1 none none := by
  exact ⟨rfl, by simp [calculateExpectedProfit, add_comm]⟩

/-- Witness for C6 at the spec's end-to-end pair: rates −0.004 and 0.003. -/
theorem c6_oppositeSign_profit_witness :
    calculateExpectedProfit 1 (-4 / 1000) (3 / 1000) none none
        = |(-4 / 1000 : ℚ)| + |(3 / 1000 : ℚ)| ∧
    calculateExpectedProfit 1 (-4 / 1000) (3 / 1000) none none
        = calculateExpectedProfit 1 (3 / 1000) (-4 / 1000) none none :=
  c6_oppositeSign_profit (-4 / 1000) (3 / 1000) (by norm_num) (by norm_num)

/-! ## Trade execution and scheduler state (`auto-trade.scheduler.ts`) -/

/-- `TradeExecution` from `auto-trade.interface.ts`, as created by
`executeOptimizedTrade`; timestamps are integer milliseconds. -/
structure TradeExecution where
  id : String
  scenarioId : ℕ
  symbol : String
  longExchange : String
  shortExchange : String
  longFundingRate : ℚ
  shortFundingRate : ℚ
  expectedProfit : ℚ
  actualProfit : ℚ
  status : String
  executedAt : ℤ
  closeAt : Option ℤ
deriving DecidableEq

/-- The `TradeExecution` record literal built by `executeOptimizedTrade`
(lines 453-466); `Date.now()` / `new Date()` are the `now` parameter.  None
of the opportunity's funding-time fields is read. -/
def mkTradeExecution (opportunity : SimpleOpportunity) (now : ℤ) : TradeExecution :=
  { id := toString opportunity.scenarioId ++ "_" ++ opportunity.symbol ++ "_" ++ toString now
    scenarioId := opportunity.scenarioId
    symbol := opportunity.symbol
    longExchange := opportunity.longExchange
    shortExchange := opportunity.shortExchange
    longFundingRate := opportunity.longFundingRate
    shortFundingRate := opportunity.shortFundingRate
    expectedProfit := opportunity.expectedProfit
    actualProfit := 0
    status := "ACTIVE"
    executedAt := now
    closeAt := none }

/-- `executeOptimizedTrade` (lines 444-483): appends the trade to
`activePositions` with status ACTIVE unconditionally (order placement is a
TODO in the source, and no funding deadline is consulted anywhere). -/
def executeOptimizedTrade (activePositions : List TradeExecution)
    (opportunity : SimpleOpportunity) (now : ℤ) : List TradeExecution :=
  activePositions ++ [mkTradeExecution opportunity now]

/-- One iteration of the loop in `executeTopOpportunities` (lines 413-439):
skip when an ACTIVE position with the same symbol exists, skip when the
scenario's ACTIVE-position count reached `maxPositionsPerScenario`,
otherwise execute. -/
def executeTopStep (maxPositionsPerScenario : ℕ) (now : ℤ)
    (activePositions : List TradeExecution) (opportunity : SimpleOpportunity) :
    List TradeExecution :=
  if activePositions.any (fun p =>
      decide (p.symbol = opportunity.symbol) && decide (p.status = "ACTIVE")) then
    activePositions
  else if maxPositionsPerScenario ≤
      (activePositions.filter (fun p =>
        decide (p.scenarioId = opportunity.scenarioId) &&
        decide (p.status = "ACTIVE"))).length then
    activePositions
  else executeOptimizedTrade activePositions opportunity now

/-- `executeTopOpportunities`: the loop over the admitted opportunities. -/
def executeTopOpportunities (maxPositionsPerScenario : ℕ)
    (activePositions : List TradeExecution)
    (bestOpportunities : List SimpleOpportunity) (now : ℤ) : List TradeExecution :=
  bestOpportunities.foldl (executeTopStep maxPositionsPerScenario now) activePositions

/-- Number of ACTIVE positions on a symbol. -/
def countActive (positions : List TradeExecution) (symbol : String) : ℕ :=
  (positions.filter (fun p =>
    decide (p.symbol = symbol) && decide (p.status = "ACTIVE"))).length

theorem countActive_append (l : List TradeExecution) (t : TradeExecution) (s : String) :
    countActive (l ++ [t]) s =
      countActive l s + if t.symbol = s ∧ t.status = "ACTIVE" then 1 else 0 := by
  unfold countActive
  rw [List.filter_append, List.length_append]
  congr 1
  by_cases h1 : t.symbol = s <;> by_cases h2 : t.status = "ACTIVE" <;>
    simp [List.filter, h1, h2]

theorem countActive_eq_zero_of_not_any {l : List TradeExecution} {sym : String}
    (h : l.any (fun p =>
      decide (p.symbol = sym) && decide (p.status = "ACTIVE")) = false) :
    countActive l sym = 0 := by
  unfold countActive
  simp only [List.any_eq_false] at h
  rw [List.length_eq_zero, List.filter_eq_nil_iff]
  intro p hp
  exact h p hp

theorem executeTopStep_preserves (m : ℕ) (now : ℤ) (acc : List TradeExecution)
    (o : SimpleOpportunity) (hinv : ∀ s, countActive acc s ≤ 1) :
    ∀ s, countActive (executeTopStep m now acc o) s ≤ 1 := by
  intro s
  unfold executeTopStep
  split_ifs with h1 h2
  · exact hinv s
  · exact hinv s
  · unfold executeOptimizedTrade
    rw [countActive_append]
    by_cases hs : (mkTradeExecution o now).symbol = s ∧
        (mkTradeExecution o now).status = "ACTIVE"
    · rw [if_pos hs]
      have h0 : countActive acc s = 0 := by
        rw [← hs.1]
        exact countActive_eq_zero_of_not_any (Bool.eq_false_iff.mpr h1)
      rw [h0]
    · rw [if_neg hs, Nat.add_zero]
      exact hinv s

theorem executeTopStep_skips {m : ℕ} {now : ℤ} {acc : List TradeExecution}
    {o : SimpleOpportunity} (h : ∃ p ∈ acc, p.symbol = o.symbol ∧ p.status = "ACTIVE") :
    executeTopStep m now acc o = acc := by
  obtain ⟨p, hp, h1, h2⟩ := h
  unfold executeTopStep
  rw [if_pos]
  simp only [List.any_eq_true]
  exact ⟨p, hp, by simp [h1, h2]⟩

theorem executeTop_foldl_invariant (m : ℕ) (now : ℤ) :
    ∀ (best : List SimpleOpportunity) (acc : List TradeExecution),
      (∀ s, countActive acc s ≤ 1) →
      ∀ s, countActive (best.foldl (executeTopStep m now) acc) s ≤ 1
  | [], acc, hinv, s => hinv s
  | o :: best, acc, hinv, s => by
    rw [List.foldl_cons]
    exact executeTop_foldl_invariant m now best (executeTopStep m now acc o)
      (executeTopStep_preserves m now acc o hinv) s

/-- C9: starting from a ledger with at most one ACTIVE position per symbol,
executing the admitted opportunities preserves that invariant, and an
opportunity whose symbol already has an ACTIVE position is skipped (the
position list is left exactly as it was: nothing queued, nothing
overwritten). -/
theorem c9_one_active_per_symbol (maxPositionsPerScenario : ℕ)
    (activePositions : List TradeExecution)
    (bestOpportunities : List SimpleOpportunity) (now : ℤ)
    (hinv : ∀ s, countActive activePositions s ≤ 1) :
    (∀ s, countActive (executeTopOpportunities maxPositionsPerScenario
        activePositions bestOpportunities now) s ≤ 1) ∧
    (∀ (acc : List TradeExecution) (o : SimpleOpportunity),
      (∃ p ∈ acc, p.symbol = o.symbol ∧ p.status = "ACTIVE") →
      executeTopStep maxPositionsPerScenario now acc o = acc) :=
  ⟨executeTop_foldl_invariant maxPositionsPerScenario now bestOpportunities
      activePositions hinv,
   fun _ _ h => executeTopStep_skips h⟩

/-- The spec's end-to-end duplicate: an admitted "ETHUSDT" opportunity. -/
def ethOpp : SimpleOpportunity :=
  ⟨"ETHUSDT", 1, "Funding trái dấu", "Binance", "Bybit", -1, 1, none, none, 2, 0⟩

/-- Witness for C9: a ledger already holding an ACTIVE "ETHUSDT" trade
satisfies the invariant after execution, and a second "ETHUSDT" opportunity
leaves the ledger untouched. -/
theorem c9_one_active_per_symbol_witness :
    countActive (executeTopOpportunities 3 [mkTradeExecution ethOpp 0] [ethOpp] 5)
        "ETHUSDT" ≤ 1 ∧
    executeTopStep 3 5 [mkTradeExecution ethOpp 0] ethOpp = [mkTradeExecution ethOpp 0] :=
  ⟨(c9_one_active_per_symbol 3 [mkTradeExecution ethOpp 0] [ethOpp] 5
      (fun s => by
        unfold countActive
        cases hf : List.filter (fun p =>
            decide (p.symbol = s) && decide (p.status = "ACTIVE"))
            [mkTradeExecution ethOpp 0] with
        | nil => simp
        | cons a t =>
          have := List.length_filter_le (fun p =>
            decide (p.symbol = s) && decide (p.status = "ACTIVE"))
            [mkTradeExecution ethOpp 0]
          rw [hf] at this
          simpa using this)).1 "ETHUSDT",
   (c9_one_active_per_symbol 3 [mkTradeExecution ethOpp 0] [ethOpp] 5
      (fun s => by
        unfold countActive
        cases hf : List.filter (fun p =>
            decide (p.symbol = s) && decide (p.status = "ACTIVE"))
            [mkTradeExecution ethOpp 0] with
        | nil => simp
        | cons a t =>
          have := List.length_filter_le (fun p =>
            decide (p.symbol = s) && decide (p.status = "ACTIVE"))
            [mkTradeExecution ethOpp 0]
          rw [hf] at this
          simpa using this)).2 [mkTradeExecution ethOpp 0] ethOpp
     ⟨mkTradeExecution ethOpp 0, by simp, rfl, rfl⟩⟩

/-- A "BTCUSDT" opportunity whose funding deadline (100) is already in the
past at evaluation time (now = 200). -/
def staleOpp : SimpleOpportunity :=
  ⟨"BTCUSDT", 1, "Funding trái dấu", "Binance", "Bybit", -1, 1, some 100, some 100, 2, 0⟩

/-- Counterexample for C7 as stated: the funding deadline of `staleOpp`
(100) is before evaluation time (200), yet `executeOptimizedTrade` records
the trade as ACTIVE — there is no Aborted transition and the task is not
prevented from going live. -/
theorem c7_counterexample_pastDeadline :
    staleOpp.longNextFundingTime = some 100 ∧ (100 : ℤ) < 200 ∧
    executeOptimizedTrade [] staleOpp 200 = [mkTradeExecution staleOpp 200] ∧
    (mkTradeExecution staleOpp 200).status = "ACTIVE" :=
  ⟨rfl, by decide, rfl, rfl⟩

/-- C7 (amended): the source has no execution state machine and no deadline
logic: `executeOptimizedTrade` is entirely independent of the opportunity's
funding-time fields and always appends exactly one ACTIVE trade. -/
theorem c7_no_deadline_check (activePositions : List TradeExecution)
    (opportunity : SimpleOpportunity) (now : ℤ) (d1 d2 : Option ℤ) :
    executeOptimizedTrade activePositions
        { opportunity with longNextFundingTime := d1, shortNextFundingTime := d2 } now
      = executeOptimizedTrade activePositions opportunity now ∧
    executeOptimizedTrade activePositions opportunity now
      = activePositions ++ [mkTradeExecution opportunity now] ∧
    (mkTradeExecution opportunity now).status = "ACTIVE" :=
  ⟨rfl, rfl, rfl⟩

/-! ## Funding-rate collection (`funding-rate.service.ts`) -/

/-- `FundingRateService.collectFundingRates` (lines 26-57): each connector
call sits in its own try/catch whose catch only logs, so a throwing
connector (`none`) merely skips its `map.set`; the function itself never
throws (it is total here).  The three arguments are the outcomes of the
Binance, Bybit and OKX `getFundingRates` calls. -/
def collectFundingRates (binanceResult bybitResult okxResult : Option (List FundingRate)) :
    List (String × List FundingRate) :=
  (match binanceResult with
   | some rates => [("Binance", rates)]
   | none => []) ++
  (match bybitResult with
   | some rates => [("Bybit", rates)]
   | none => []) ++
  (match okxResult with
   | some rates => [("OKX", rates)]
   | none => [])

/-- C8: under any combination of per-exchange outcomes the returned map
holds exactly the successful exchanges' rates — an exchange's binding is
present iff its fetch succeeded, and each exchange's visible data
(`map.get(...) || []`, as the scheduler reads it) depends only on its own
outcome, so one failure neither removes another exchange's data nor halts
the cycle. -/
theorem c8_partial_failure_isolated (b y o : Option (List FundingRate)) :
    (∀ rates, ("Binance", rates) ∈ collectFundingRates b y o ↔ b = some rates) ∧
    (∀ rates, ("Bybit", rates) ∈ collectFundingRates b y o ↔ y = some rates) ∧
    (∀ rates, ("OKX", rates) ∈ collectFundingRates b y o ↔ o = some rates) ∧
    ratesFor (collectFundingRates b y o) "Binance" = b.getD [] ∧
    ratesFor (collectFundingRates b y o) "Bybit" = y.getD [] ∧
    ratesFor (collectFundingRates b y o) "OKX" = o.getD [] := by
  cases b <;> cases y <;> cases o <;>
    refine ⟨fun rates => ?_, fun rates => ?_, fun rates => ?_, rfl, rfl, rfl⟩ <;>
      simp [collectFundingRates, eq_comm]

/-! ## The scan cycle (`AutoTradeScheduler.scanForOpportunities`) -/

/-- The `emergencyStop` block of `AutoTradeConfig`. -/
structure EmergencyStopConfig where
  maxDailyLoss : ℚ
  maxDrawdown : ℚ
deriving DecidableEq

/-- `AutoTradeConfig` from `auto-trade.interface.ts`. -/
structure AutoTradeConfig where
  enabled : Bool
  checkInterval : ℕ
  maxPositionsPerScenario : ℕ
  scenarios : List Scenario
  emergencyStop : EmergencyStopConfig
deriving DecidableEq

/-- The scheduler's initial `config` object. -/
def defaultConfig : AutoTradeConfig :=
  ⟨true, 5, 3, defaultScenarios, ⟨1000, 5 / 100⟩⟩

/-- The mutable fields of `AutoTradeScheduler`. -/
structure SchedulerState where
  config : AutoTradeConfig
  activePositions : List TradeExecution
  dailyPnL : ℚ
  lastResetDate : String
  rawOpportunities : List RawOpp
deriving DecidableEq

/-- The collaborator-supplied inputs of one cycle: the current calendar-day
string (`new Date().toDateString()`), the clock, and the funding snapshot
the `FundingRateService` would return. -/
structure CycleEnv where
  today : String
  now : ℤ
  fundingRates : List (String × List FundingRate)
deriving DecidableEq

/-- The collaborator calls `scanForOpportunities` can make (snapshot fetch
and the WebSocket broadcasts; trades are recorded in state). -/
inductive ExternalCall where
  | collectRates
  | broadcastFundingRates
  | broadcastOpportunities
  | broadcastProfitUpdate
  | broadcastBotStatus
  | broadcastPositions
deriving DecidableEq

/-- `resetDailyPnLIfNewDay` (lines 604-611). -/
def resetDailyPnLIfNewDay (st : SchedulerState) (today : String) : SchedulerState :=
  if today ≠ st.lastResetDate then
    { st with dailyPnL := 0, lastResetDate := today }
  else st

/-- `shouldClosePosition` (lines 563-571): close after 8 hours. -/
def shouldClosePosition (position : TradeExecution) (now : ℤ) : Bool :=
  decide (8 * 60 * 60 * 1000 < now - position.executedAt)

/-- `manageActivePositions` + `closePosition`: every due ACTIVE position is
marked CLOSED (the in-source close path cannot fail: order closure is a
TODO). -/
def manageActivePositions (positions : List TradeExecution) (now : ℤ) :
    List TradeExecution :=
  positions.map (fun p =>
    if decide (p.status = "ACTIVE") && shouldClosePosition p now then
      { p with status := "CLOSED" }
    else p)

/-- The `for (const scenario of this.config.scenarios)` collection loop. -/
def collectAllOpportunities (scenarios : List Scenario)
    (fundingRates : List (String × List FundingRate)) (now : ℤ) : List RawOpp :=
  scenarios.flatMap (fun scenario =>
    collectScenarioOpportunities scenario fundingRates now)

/-- `scanForOpportunities` (lines 125-176) as a state transformer that also
reports the collaborator calls it made, in order; the per-trade
`broadcastProfitUpdate` calls are reported as one entry per executed trade
(each execution appends exactly one position, so the count is the length
difference). -/
def scanForOpportunities (st : SchedulerState) (env : CycleEnv) :
    SchedulerState × List ExternalCall :=
  if !st.config.enabled then (st, [])
  else
    let st1 := resetDailyPnLIfNewDay st env.today
    if shouldEmergencyStop st1.dailyPnL st1.config.emergencyStop.maxDailyLoss then
      (st1, [])
    else
      let raw := collectAllOpportunities st1.config.scenarios env.fundingRates env.now
      let best := getTopOpportunities raw 10
      let afterExec := executeTopOpportunities st1.config.maxPositionsPerScenario
        st1.activePositions best env.now
      let afterManage := manageActivePositions afterExec env.now
      ({ st1 with rawOpportunities := raw, activePositions := afterManage },
       [ExternalCall.collectRates, ExternalCall.broadcastFundingRates,
        ExternalCall.broadcastOpportunities] ++
       List.replicate (afterExec.length - st1.activePositions.length)
         ExternalCall.broadcastProfitUpdate ++
       [ExternalCall.broadcastBotStatus, ExternalCall.broadcastPositions])

/-- C10: when the enabled flag is false, `scanForOpportunities` returns
immediately with the state unchanged — `activePositions`, `dailyPnL`,
`lastResetDate` and `rawOpportunities` are untouched — and the collaborator
call trace is empty (no snapshot fetch, no trade, no broadcast). -/
theorem c10_disabled_scan_is_noop (st : SchedulerState) (env : CycleEnv)
    (h : st.config.enabled = false) :
    scanForOpportunities st env = (st, []) := by
  unfold scanForOpportunities
  rw [h]
  rfl

/-- A scheduler state with the flag off and some nonempty ledger. -/
def disabledState : SchedulerState :=
  ⟨{ defaultConfig with enabled := false }, [mkTradeExecution ethOpp 0], 42,
    "Mon Jan 01 2024", []⟩

/-- Witness for C10 at a concrete disabled state and a cycle environment
that would otherwise reset the day and find opportunities. -/
theorem c10_disabled_scan_witness :
    scanForOpportunities disabledState
      ⟨"Tue Jan 02 2024", 999, cexFundingRates⟩ = (disabledState, []) :=
  c10_disabled_scan_is_noop disabledState ⟨"Tue Jan 02 2024", 999, cexFundingRates⟩ rfl

end FundingArb
